import Mathlib

/-!
Shallow embedding of `src/main.py` from the `cpp_utils` repository: an
in-memory model of C++ program elements (members, methods, structs, classes
and paired header/source files) that renders to C++ text.

Python strings are modelled as `List Char` (`Str`); f-strings become list
concatenation, `str.join` becomes `joinSep`, and the regex pipeline of
`camel_to_snake_case` is modelled position-by-position (the program only
feeds it ASCII identifiers, so `lower`/`upper` are modelled on ASCII).
Methods that in Python could mutate their receiver are embedded in
state-passing style, returning the produced text together with the
receiver's state after the call.
-/

/-- Strings of the Python program, modelled as lists of characters. -/
abbrev Str := List Char

/-- ASCII uppercase test: the regex class [A-Z] used by `camel_to_snake_case`. -/
def isUpperChar (c : Char) : Bool := decide (65 ≤ c.toNat) && decide (c.toNat ≤ 90)

/-- ASCII lowercase test. -/
def isLowerChar (c : Char) : Bool := decide (97 ≤ c.toNat) && decide (c.toNat ≤ 122)

/-- ASCII digit test: the regex class \d on the ASCII identifiers this program handles. -/
def isDigitChar (c : Char) : Bool := decide (48 ≤ c.toNat) && decide (c.toNat ≤ 57)

/-- ASCII letter-or-digit test. -/
def isAlphanumChar (c : Char) : Bool := isUpperChar c || isLowerChar c || isDigitChar c

/-- `str.lower` on one character, as it acts on the ASCII range. -/
def toLowerChar (c : Char) : Char := if isUpperChar c then Char.ofNat (c.toNat + 32) else c

/-- `str.upper` on one character, as it acts on the ASCII range. -/
def toUpperChar (c : Char) : Char := if isLowerChar c then Char.ofNat (c.toNat - 32) else c

/-- Tail worker for `underscoreBeforeUpper`: inserts an underscore before every
uppercase letter (these positions are all non-initial). -/
def underscoreBeforeUpperTail : Str → Str
  | [] => []
  | c :: rest =>
      if isUpperChar c then '_' :: c :: underscoreBeforeUpperTail rest
      else c :: underscoreBeforeUpperTail rest

/-- Step 1 of `camel_to_snake_case`, the substitution
re.sub with pattern (?<!^)(?=[A-Z]): an underscore before every uppercase
letter that is not the first character. -/
def underscoreBeforeUpper : Str → Str
  | [] => []
  | c :: rest => c :: underscoreBeforeUpperTail rest

/-- Inserts an underscore between every adjacent pair a, b with p a and q b:
the empty-match substitutions with a lookbehind on p and a lookahead on q. -/
def insertBetween (p q : Char → Bool) : Str → Str
  | [] => []
  | [c] => [c]
  | a :: b :: rest =>
      if p a && q b then a :: '_' :: insertBetween p q (b :: rest)
      else a :: insertBetween p q (b :: rest)

/-- Step 5 of `camel_to_snake_case`: re.sub collapsing every run of two or
more underscores to a single underscore (each underscore followed by another
underscore is dropped, keeping the last of the run). -/
def collapseUnderscores : Str → Str
  | [] => []
  | [c] => [c]
  | a :: b :: rest =>
      if a = '_' ∧ b = '_' then collapseUnderscores (b :: rest)
      else a :: collapseUnderscores (b :: rest)

/-- Step 6 of `camel_to_snake_case`: Python rstrip with argument underscore,
removing every trailing underscore. -/
def rstripUnderscores : Str → Str
  | [] => []
  | c :: rest =>
      if rstripUnderscores rest = [] ∧ c = '_' then []
      else c :: rstripUnderscores rest

/-- Embeds `camel_to_snake_case` (src/main.py lines 5-34): underscore before
non-initial uppercase, underscore at letter-digit and digit-letter
transitions, lowercase everything, collapse underscore runs, strip trailing
underscores. -/
def camel_to_snake_case (camel_str : Str) : Str :=
  rstripUnderscores (collapseUnderscores
    ((insertBetween isDigitChar (fun c => !isDigitChar c)
      (insertBetween (fun c => !isDigitChar c) isDigitChar
        (underscoreBeforeUpper camel_str))).map toLowerChar))

/-- Python `sep.join(parts)`. -/
def joinSep (sep : Str) : List Str → Str
  | [] => []
  | [x] => x
  | x :: y :: rest => x ++ sep ++ joinSep sep (y :: rest)

/-- True when the output contains no two adjacent underscores (no run of
length two or more). -/
def noDoubleUnderscore : Str → Bool
  | [] => true
  | [_] => true
  | a :: b :: rest => !(a == '_' && b == '_') && noDoubleUnderscore (b :: rest)

/-- `needle` matches at the start of `haystack`. -/
def startsWithStr : Str → Str → Bool
  | [], _ => true
  | _ :: _, [] => false
  | a :: xs, b :: ys => a == b && startsWithStr xs ys

/-- `needle` occurs contiguously somewhere in `haystack` (Python `needle in haystack`). -/
def occursIn (needle : Str) : Str → Bool
  | [] => startsWithStr needle []
  | c :: t => startsWithStr needle (c :: t) || occursIn needle t

/-- `CppType.INT` (src/main.py line 38). -/
def CppType.INT : Str := "int".data

/-- `CppType.FLOAT`. -/
def CppType.FLOAT : Str := "float".data

/-- `CppType.DOUBLE`. -/
def CppType.DOUBLE : Str := "double".data

/-- `CppType.CHAR`. -/
def CppType.CHAR : Str := "char".data

/-- `CppType.STRING`. -/
def CppType.STRING : Str := "std::string".data

/-- `CppType.all_types`. -/
def CppType.all_types : List Str :=
  [CppType.INT, CppType.FLOAT, CppType.DOUBLE, CppType.CHAR, CppType.STRING]

/-- `CppMember` (src/main.py lines 50-60). -/
structure CppMember where
  name : Str
  type_name : Str
  value : Str
deriving DecidableEq

/-- Embeds `CppMember.__str__`: one line, with "= value" inserted only when
the value is non-empty. -/
def CppMember.toStr (m : CppMember) : Str :=
  m.type_name ++ " ".data ++ m.name
    ++ (if m.value = [] then [] else "= ".data ++ m.value) ++ ";".data

/-- `CppMethod` (src/main.py lines 63-95).  Field defaults of the Python
initializer (access public, empty initializer list, out-of-line placement,
no qualifiers) are supplied explicitly at every construction site. -/
structure CppMethod where
  name : Str
  return_type : Str
  parameters : Str
  body : Str
  access_modifier : Str
  initializer_list : Str
  define_in_header : Bool
  qualifiers : List Str
deriving DecidableEq

/-- Embeds `CppMethod.declaration` (lines 76-80). -/
def CppMethod.declaration (m : CppMethod) : Str :=
  let space := if m.return_type ≠ [] then " ".data else []
  let qualifier_str :=
    if m.qualifiers.length ≠ 0 then " ".data ++ joinSep (" ".data) m.qualifiers else []
  m.return_type ++ space ++ m.name ++ "(".data ++ m.parameters ++ ")".data
    ++ qualifier_str ++ ";".data

/-- Embeds `CppMethod.get_definition` (lines 82-95): the initializer-list text
is placed right after the parameter list and the qualifier text after it,
then a space, the brace-wrapped indented body. -/
def CppMethod.get_definition (m : CppMethod) (class_name : Str) : Str :=
  let space := if m.return_type ≠ [] then " ".data else []
  let initializer :=
    if m.initializer_list ≠ [] then " : ".data ++ m.initializer_list else []
  let qualifier_str :=
    if m.qualifiers.length ≠ 0 then " ".data ++ joinSep (" ".data) m.qualifiers else []
  if m.define_in_header then
    m.return_type ++ space ++ m.name ++ "(".data ++ m.parameters ++ ")".data
      ++ initializer ++ qualifier_str ++ " \x7b\n    ".data ++ m.body ++ "\n\x7d".data
  else
    m.return_type ++ space ++ class_name ++ "::".data ++ m.name
      ++ "(".data ++ m.parameters ++ ")".data
      ++ initializer ++ qualifier_str ++ " \x7b\n    ".data ++ m.body ++ "\n\x7d".data

/-- The text a method contributes to the header: its inline definition when
`define_in_header` is set, otherwise its declaration. -/
def headerMethodText (class_name : Str) (m : CppMethod) : Str :=
  if m.define_in_header then m.get_definition class_name else m.declaration

/-- Loop body of `get_public_and_private_methods_for_header` (lines 109-120):
two sequential conditionals route each method's text by access modifier. -/
def partitionLoop (class_name : Str) : List CppMethod → List Str → List Str → List Str × List Str
  | [], public_methods, private_methods => (public_methods, private_methods)
  | m :: rest, public_methods, private_methods =>
      let public_methods :=
        if m.access_modifier = "public".data then
          (if m.define_in_header then public_methods ++ [m.get_definition class_name]
           else public_methods ++ [m.declaration])
        else public_methods
      let private_methods :=
        if m.access_modifier = "private".data then
          (if m.define_in_header then private_methods ++ [m.get_definition class_name]
           else private_methods ++ [m.declaration])
        else private_methods
      partitionLoop class_name rest public_methods private_methods

/-- Embeds `get_public_and_private_methods_for_header` (lines 100-122). -/
def get_public_and_private_methods_for_header (class_name : Str)
    (methods : List CppMethod) : List Str × List Str :=
  partitionLoop class_name methods [] []

/-- Embeds `generate_header_content_for_class_or_struct` (lines 124-142). -/
def generate_header_content_for_class_or_struct (is_class : Bool)
    (class_or_struct_name : Str) (members : List CppMember)
    (methods : List CppMethod) : Str :=
  let members_str := joinSep ("\n    ".data) (members.map CppMember.toStr)
  let pp := get_public_and_private_methods_for_header class_or_struct_name methods
  let public_methods_str := joinSep ("\n    ".data) pp.1
  let private_methods_str := joinSep ("\n    ".data) pp.2
  (if is_class then "class".data else "struct".data) ++ " ".data
    ++ class_or_struct_name ++ " \x7b\n".data
    ++ "public:\n".data
    ++ "    ".data ++ members_str ++ "\n".data
    ++ "\n    ".data ++ public_methods_str ++ "\n".data
    ++ "\nprivate:\n".data
    ++ "    ".data ++ private_methods_str ++ "\n".data
    ++ "\x7d;\n\n".data

/-- Embeds `generate_source_content_for_class_or_struct` (lines 145-152):
the out-of-line definitions of the methods not defined in the header, in
insertion order, joined by blank lines. -/
def generate_source_content_for_class_or_struct (class_or_struct_name : Str)
    (methods : List CppMethod) : Str :=
  joinSep ("\n\n".data)
    ((methods.filter (fun m => !m.define_in_header)).map
      (fun m => m.get_definition class_or_struct_name))

/-- `CppClass` (src/main.py lines 154-207). -/
structure CppClass where
  name : Str
  members : List CppMember
  methods : List CppMethod
  includes : List Str
deriving DecidableEq

/-- `CppClass.__init__`. -/
def mkCppClass (name : Str) : CppClass :=
  { name := name, members := [], methods := [], includes := [] }

/-- `CppClass.add_include`. -/
def CppClass.add_include (c : CppClass) (include_line : Str) : CppClass :=
  { c with includes := c.includes ++ [include_line] }

/-- `CppClass.add_member`. -/
def CppClass.add_member (c : CppClass) (member : CppMember) : CppClass :=
  { c with members := c.members ++ [member] }

/-- `CppClass.add_method`. -/
def CppClass.add_method (c : CppClass) (method : CppMethod) : CppClass :=
  { c with methods := c.methods ++ [method] }

/-- Embeds `CppClass.add_constructor` (lines 175-184): synthesizes a method
named after the class with empty return type; the remaining fields take the
defaults of `CppMethod.__init__`. -/
def CppClass.add_constructor (c : CppClass) (parameters : Str)
    (initializer_list : Str) (body : Str) : CppClass :=
  c.add_method
    { name := c.name, return_type := [], parameters := parameters, body := body,
      access_modifier := "public".data, initializer_list := initializer_list,
      define_in_header := false, qualifiers := [] }

/-- `CppClass.generate_header_content`, in state-passing form: the produced
text together with the receiver after the call (the Python method only reads
its fields). -/
def CppClass.generate_header_content (c : CppClass) : Str × CppClass :=
  (generate_header_content_for_class_or_struct true c.name c.members c.methods, c)

/-- `CppClass.generate_source_content`, in state-passing form. -/
def CppClass.generate_source_content (c : CppClass) : Str × CppClass :=
  (generate_source_content_for_class_or_struct c.name c.methods, c)

/-- `CppStruct` (src/main.py lines 209-225). -/
structure CppStruct where
  name : Str
  members : List CppMember
  methods : List CppMethod
deriving DecidableEq

/-- `CppStruct.__init__`. -/
def mkCppStruct (name : Str) : CppStruct :=
  { name := name, members := [], methods := [] }

/-- `CppStruct.add_member`. -/
def CppStruct.add_member (st : CppStruct) (member : CppMember) : CppStruct :=
  { st with members := st.members ++ [member] }

/-- `CppStruct.add_method`. -/
def CppStruct.add_method (st : CppStruct) (method : CppMethod) : CppStruct :=
  { st with methods := st.methods ++ [method] }

/-- `CppStruct.generate_header_content`, in state-passing form. -/
def CppStruct.generate_header_content (st : CppStruct) : Str × CppStruct :=
  (generate_header_content_for_class_or_struct false st.name st.members st.methods, st)

/-- `CppStruct.generate_source_content`, in state-passing form. -/
def CppStruct.generate_source_content (st : CppStruct) : Str × CppStruct :=
  (generate_source_content_for_class_or_struct st.name st.methods, st)

/-- `CppHeaderAndSource` (src/main.py lines 227-286). -/
structure CppHeaderAndSource where
  name : Str
  includes : List Str
  extra_header_code : List Str
  structs : List CppStruct
  classes : List CppClass
deriving DecidableEq

/-- `CppHeaderAndSource.__init__`. -/
def mkCppHeaderAndSource (name : Str) : CppHeaderAndSource :=
  { name := name, includes := [], extra_header_code := [], structs := [], classes := [] }

/-- `CppHeaderAndSource.add_extra_header_code`. -/
def CppHeaderAndSource.add_extra_header_code (fp : CppHeaderAndSource)
    (extra : Str) : CppHeaderAndSource :=
  { fp with extra_header_code := fp.extra_header_code ++ [extra] }

/-- `CppHeaderAndSource.add_include`. -/
def CppHeaderAndSource.add_include (fp : CppHeaderAndSource) (include_line : Str) :
    CppHeaderAndSource :=
  { fp with includes := fp.includes ++ [include_line] }

/-- `CppHeaderAndSource.add_struct`. -/
def CppHeaderAndSource.add_struct (fp : CppHeaderAndSource) (st : CppStruct) :
    CppHeaderAndSource :=
  { fp with structs := fp.structs ++ [st] }

/-- `CppHeaderAndSource.add_class`. -/
def CppHeaderAndSource.add_class (fp : CppHeaderAndSource) (cls : CppClass) :
    CppHeaderAndSource :=
  { fp with classes := fp.classes ++ [cls] }

/-- Embeds `CppHeaderAndSource.generate_header_content` (lines 248-275):
guard open, newline-joined global-then-per-class includes, struct fragments,
extra header code, a spacer, class fragments, guard close.  The loops over
structs and classes are folds that accumulate the emitted text and thread
each element's state after its render call. -/
def CppHeaderAndSource.generate_header_content (fp : CppHeaderAndSource) :
    Str × CppHeaderAndSource :=
  let guard_name := (camel_to_snake_case fp.name).map toUpperChar ++ "_HPP".data
  let all_includes := fp.includes
  let content := "#ifndef ".data ++ guard_name ++ "\n".data
    ++ "#define ".data ++ guard_name ++ "\n\n".data
  let all_includes := fp.classes.foldl (fun acc cls => acc ++ cls.includes) all_includes
  let content := content ++ joinSep ("\n".data) all_includes
  let sres := fp.structs.foldl
    (fun acc st =>
      let r := st.generate_header_content
      (acc.1 ++ r.1, acc.2 ++ [r.2]))
    (content, [])
  let content := fp.extra_header_code.foldl (fun acc hc => acc ++ hc) sres.1
  let content := content ++ "\n\n".data
  let cres := fp.classes.foldl
    (fun acc cls =>
      let r := cls.generate_header_content
      (acc.1 ++ r.1, acc.2 ++ [r.2]))
    (content, [])
  let content := cres.1 ++ "#endif // ".data ++ guard_name
  (content, { fp with structs := sres.2, classes := cres.2 })

/-- Embeds `CppHeaderAndSource.generate_source_content` (lines 277-286):
self-include, then each struct's source fragment, then each class's. -/
def CppHeaderAndSource.generate_source_content (fp : CppHeaderAndSource) :
    Str × CppHeaderAndSource :=
  let content := "#include \"".data ++ fp.name ++ ".hpp\"\n\n".data
  let sres := fp.structs.foldl
    (fun acc st =>
      let r := st.generate_source_content
      (acc.1 ++ r.1, acc.2 ++ [r.2]))
    (content, [])
  let cres := fp.classes.foldl
    (fun acc cls =>
      let r := cls.generate_source_content
      (acc.1 ++ r.1, acc.2 ++ [r.2]))
    (sres.1, [])
  (cres.1, { fp with structs := sres.2, classes := cres.2 })

/-- The struct built by the example in `__main__` (src/main.py lines 293-296). -/
def example_struct : CppStruct :=
  (((mkCppStruct ("ExampleStruct".data)).add_member
      { name := "w".data, type_name := CppType.INT, value := [] }).add_member
      { name := "z".data, type_name := CppType.INT, value := [] }).add_method
    { name := "add".data, return_type := "int".data, parameters := [],
      body := "return w + z;".data, access_modifier := "public".data,
      initializer_list := [], define_in_header := false, qualifiers := [] }

/-- The class built by the example in `__main__` (lines 298-304). -/
def example_class : CppClass :=
  ((((mkCppClass ("ExampleClass".data)).add_member
      { name := "x".data, type_name := CppType.INT, value := [] }).add_member
      { name := "y".data, type_name := CppType.FLOAT, value := [] }).add_include
      ("#include <iostream>\n".data)).add_constructor
    ("int x, float y".data) ("x(x), y(y)".data) []

/-- The file pair built by the example in `__main__` (lines 291-307). -/
def example_file : CppHeaderAndSource :=
  ((mkCppHeaderAndSource ("example_file".data)).add_struct example_struct).add_class
    example_class

/-- A constructor-like method carrying both a non-empty initializer list and a
non-empty qualifier list, exercising lines 85-93 of src/main.py. -/
def ctorWithQualifier : CppMethod :=
  { name := "C".data, return_type := [], parameters := [], body := [],
    access_modifier := "public".data, initializer_list := "x(0)".data,
    define_in_header := false, qualifiers := ["noexcept".data] }

/-- An in-header method carrying both a non-empty initializer list and a
non-empty qualifier list. -/
def inHeaderWithQualifier : CppMethod :=
  { name := "f".data, return_type := "int".data, parameters := "int x".data,
    body := "return 0;".data, access_modifier := "public".data,
    initializer_list := "y(0)".data, define_in_header := true,
    qualifiers := ["const".data] }

/-- The method that `CppClass.add_constructor` synthesizes, spelled out from
the spec's words: the class's own name, empty return type, public access,
out-of-line placement, no qualifiers. -/
def synthesizedCtor (c : CppClass) (parameters : Str) (initializer_list : Str)
    (body : Str) : CppMethod :=
  { name := c.name, return_type := [], parameters := parameters, body := body,
    access_modifier := "public".data, initializer_list := initializer_list,
    define_in_header := false, qualifiers := [] }

/-- A member with no initializer value. -/
def memberNoValue : CppMember :=
  { name := "x".data, type_name := CppType.INT, value := [] }

/-- A member with an initializer value. -/
def memberWithValue : CppMember :=
  { name := "y".data, type_name := CppType.FLOAT, value := "1.0f".data }

/-! ## Shared lemmas -/

/-- Folding list-append accumulation over a list equals the flattened map. -/
theorem foldl_emit_eq {α γ : Type} (l : List α) (f : α → List γ) (init : List γ) :
    l.foldl (fun acc x => acc ++ f x) init = init ++ (l.map f).flatten := by
  induction l generalizing init with
  | nil => simp
  | cons a t ih => simp [List.foldl_cons, ih, List.append_assoc]

/-- Folding plain append over a list of lists equals the flattened list. -/
theorem foldl_append_self_eq {γ : Type} (l : List (List γ)) (init : List γ) :
    l.foldl (fun acc x => acc ++ x) init = init ++ l.flatten := by
  induction l generalizing init with
  | nil => simp
  | cons a t ih => simp [List.foldl_cons, ih, List.append_assoc]

/-- Folding a state-passing render over a list accumulates the flattened
emitted texts and collects the post-states in order. -/
theorem foldl_emit_pair_eq {α β : Type} (l : List α) (g : α → Str × β)
    (i : Str) (j : List β) :
    l.foldl (fun acc x => (acc.1 ++ (g x).1, acc.2 ++ [(g x).2])) (i, j) =
      (i ++ (l.map (fun x => (g x).1)).flatten, j ++ l.map (fun x => (g x).2)) := by
  induction l generalizing i j with
  | nil => simp
  | cons a t ih => simp [List.foldl_cons, ih, List.append_assoc]

/-- The two branches of the loop body append exactly the header text of the
method. -/
theorem append_headerMethodText (class_name : Str) (m : CppMethod) (acc : List Str) :
    (if m.define_in_header then acc ++ [m.get_definition class_name]
     else acc ++ [m.declaration]) = acc ++ [headerMethodText class_name m] := by
  by_cases h : m.define_in_header <;> simp [headerMethodText, h]

/-- Characterization of the partition loop: starting from any accumulators, it
appends the header texts of the public methods (in order) to the first and of
the private methods (in order) to the second; methods with any other access
modifier contribute to neither. -/
theorem partitionLoop_spec (class_name : Str) (methods : List CppMethod) :
    ∀ pubAcc privAcc, partitionLoop class_name methods pubAcc privAcc =
      (pubAcc ++ (methods.filter
          (fun m => decide (m.access_modifier = "public".data))).map
          (headerMethodText class_name),
       privAcc ++ (methods.filter
          (fun m => decide (m.access_modifier = "private".data))).map
          (headerMethodText class_name)) := by
  induction methods with
  | nil => intro pubAcc privAcc; simp [partitionLoop]
  | cons m rest ih =>
    intro pubAcc privAcc
    simp only [partitionLoop, append_headerMethodText]
    by_cases hpub : m.access_modifier = "public".data
    · have hpriv : ¬ m.access_modifier = "private".data := by
        rw [hpub]; decide
      rw [if_pos hpub, if_neg hpriv, ih]
      simp [hpub, hpriv, List.filter_cons, List.append_assoc]
    · by_cases hpriv : m.access_modifier = "private".data
      · rw [if_neg hpub, if_pos hpriv, ih]
        simp [hpub, hpriv, List.filter_cons, List.append_assoc]
      · rw [if_neg hpub, if_neg hpriv, ih]
        simp [hpub, hpriv, List.filter_cons]

/-! ## Claim theorems -/

/-- C3: for every class/struct name and ordered method list, the partition
returns the ordered header texts (inline definition when `define_in_header`,
declaration otherwise) of exactly the methods whose access modifier is
"public" in the first sequence and "private" in the second, preserving their
relative order; a method with any other modifier is filtered out of both and
no error can arise (the function is total); the empty list yields two empty
sequences. -/
theorem partition_routes_by_access (class_name : Str) (methods : List CppMethod) :
    get_public_and_private_methods_for_header class_name methods =
      ((methods.filter (fun m => decide (m.access_modifier = "public".data))).map
          (headerMethodText class_name),
        (methods.filter (fun m => decide (m.access_modifier = "private".data))).map
          (headerMethodText class_name)) ∧
    get_public_and_private_methods_for_header class_name [] = ([], []) := by
  constructor
  · rw [get_public_and_private_methods_for_header, partitionLoop_spec]
    simp
  · rfl

/-- C7: rendering a member produces exactly one semicolon-terminated line,
with no assignment when the value is empty and with "= value" (no space
before the equals sign) when it is non-empty. -/
theorem member_renders_single_line (m : CppMember) :
    (m.value = [] →
      m.toStr = m.type_name ++ " ".data ++ m.name ++ ";".data) ∧
    (m.value ≠ [] →
      m.toStr = m.type_name ++ " ".data ++ m.name ++ "= ".data ++ m.value ++ ";".data) := by
  constructor
  · intro h
    simp [CppMember.toStr, h, List.append_assoc]
  · intro h
    simp [CppMember.toStr, h, List.append_assoc]

/-- Witness for C7 at two concrete members, one without and one with a value. -/
theorem member_renders_single_line_witness :
    (memberNoValue.value = [] ∧
      memberNoValue.toStr =
        memberNoValue.type_name ++ " ".data ++ memberNoValue.name ++ ";".data) ∧
    (memberWithValue.value ≠ [] ∧
      memberWithValue.toStr = memberWithValue.type_name ++ " ".data
        ++ memberWithValue.name ++ "= ".data ++ memberWithValue.value ++ ";".data) :=
  ⟨⟨rfl, (member_renders_single_line memberNoValue).1 rfl⟩,
    ⟨by decide, (member_renders_single_line memberWithValue).2 (by decide)⟩⟩

/-- C9: `add_constructor` appends to the method list a method named after the
class with empty return type, public access, out-of-line placement and no
qualifiers; consequently its declaration is appended to the header's public
sequence (the private sequence is unchanged) and its out-of-line definition
is appended to the source fragment's blank-line-joined definition list. -/
theorem add_constructor_synthesizes (c : CppClass) (ps il bd : Str) :
    (c.add_constructor ps il bd).methods = c.methods ++ [synthesizedCtor c ps il bd] ∧
    (synthesizedCtor c ps il bd).name = c.name ∧
    (synthesizedCtor c ps il bd).return_type = [] ∧
    (synthesizedCtor c ps il bd).access_modifier = "public".data ∧
    (synthesizedCtor c ps il bd).define_in_header = false ∧
    (synthesizedCtor c ps il bd).qualifiers = [] ∧
    (get_public_and_private_methods_for_header c.name (c.add_constructor ps il bd).methods).1 =
      (get_public_and_private_methods_for_header c.name c.methods).1
        ++ [(synthesizedCtor c ps il bd).declaration] ∧
    (get_public_and_private_methods_for_header c.name (c.add_constructor ps il bd).methods).2 =
      (get_public_and_private_methods_for_header c.name c.methods).2 ∧
    generate_source_content_for_class_or_struct c.name (c.add_constructor ps il bd).methods =
      joinSep ("\n\n".data)
        (((c.methods.filter (fun m => !m.define_in_header)).map
            (fun m => m.get_definition c.name))
          ++ [(synthesizedCtor c ps il bd).get_definition c.name]) := by
  have hmeth : (c.add_constructor ps il bd).methods =
      c.methods ++ [synthesizedCtor c ps il bd] := rfl
  refine ⟨hmeth, rfl, rfl, rfl, rfl, rfl, ?_, ?_, ?_⟩
  · rw [hmeth, get_public_and_private_methods_for_header,
      get_public_and_private_methods_for_header, partitionLoop_spec,
      partitionLoop_spec]
    simp [List.filter_append, synthesizedCtor, headerMethodText]
  · rw [hmeth, get_public_and_private_methods_for_header,
      get_public_and_private_methods_for_header, partitionLoop_spec,
      partitionLoop_spec]
    simp [List.filter_append, synthesizedCtor]
  · rw [hmeth, generate_source_content_for_class_or_struct]
    simp [List.filter_append, synthesizedCtor]

/-- C4: the claim states that the definition text places the space-prefixed
qualifiers before the initializer-list suffix, as valid C++ requires.  The
code (src/main.py lines 85-93) emits the initializer list first and the
qualifiers after it — the very point its own TODO comment on line 92 flags as
possibly wrong.  At a constructor with initializer list "x(0)" and qualifier
"noexcept", the code produces the first string below, not the second one the
claim requires. -/
theorem definition_emits_initializer_before_qualifiers :
    ctorWithQualifier.get_definition ("C".data) =
      "C::C() : x(0) noexcept \x7b\n    \n\x7d".data ∧
    ctorWithQualifier.get_definition ("C".data) ≠
      "C::C() noexcept : x(0) \x7b\n    \n\x7d".data := by
  constructor
  · decide
  · decide

/-- C5: the claim states that the parameter-list-and-qualifiers substring of
the declaration reappears verbatim in the definition.  Because the code
interposes the initializer list between the parameter list and the
qualifiers (src/main.py lines 85-93), the substring "(int x) const" of the
declaration "int f(int x) const;" does not occur in the definition
"int f(int x) : y(0) const ..." whenever both the initializer list and the
qualifier list are non-empty. -/
theorem declaration_substring_absent_from_definition :
    inHeaderWithQualifier.declaration = "int f(int x) const;".data ∧
    inHeaderWithQualifier.get_definition ("K".data) =
      "int f(int x) : y(0) const \x7b\n    return 0;\n\x7d".data ∧
    occursIn ("(int x) const".data) inHeaderWithQualifier.declaration = true ∧
    occursIn ("(int x) const".data)
      (inHeaderWithQualifier.get_definition ("K".data)) = false := by
  refine ⟨by decide, by decide, by decide, by decide⟩

/-- C2: the header render emits, in order, the guard-open lines, the
newline-joined global includes followed by every class's own includes
(classes in insertion order), every struct's header fragment, every
extra-header-code block, a spacer, every class's header fragment, and the
guard close; the guard token is the snake_cased, upper-cased file base name
suffixed with _HPP. -/
theorem header_assembly_order (fp : CppHeaderAndSource) :
    (fp.generate_header_content).1 =
      "#ifndef ".data ++ ((camel_to_snake_case fp.name).map toUpperChar ++ "_HPP".data)
      ++ "\n".data
      ++ "#define ".data ++ ((camel_to_snake_case fp.name).map toUpperChar ++ "_HPP".data)
      ++ "\n\n".data
      ++ joinSep ("\n".data) (fp.includes ++ (fp.classes.map CppClass.includes).flatten)
      ++ (fp.structs.map (fun st =>
          generate_header_content_for_class_or_struct false st.name st.members st.methods)).flatten
      ++ fp.extra_header_code.flatten
      ++ "\n\n".data
      ++ (fp.classes.map (fun cls =>
          generate_header_content_for_class_or_struct true cls.name cls.members cls.methods)).flatten
      ++ "#endif // ".data ++ ((camel_to_snake_case fp.name).map toUpperChar ++ "_HPP".data) := by
  simp only [CppHeaderAndSource.generate_header_content]
  simp only [foldl_emit_eq, foldl_append_self_eq, foldl_emit_pair_eq]
  simp only [CppStruct.generate_header_content, CppClass.generate_header_content]

/-- C8: the source render returns the self-include of "<name>.hpp" followed
by every struct's source fragment then every class's source fragment in
insertion order, concatenated with no separator of its own; each fragment is
the blank-line-joined list of out-of-line definitions of exactly the methods
whose `define_in_header` is false, in original insertion order. -/
theorem source_assembly_order (fp : CppHeaderAndSource) :
    (fp.generate_source_content).1 =
      "#include \"".data ++ fp.name ++ ".hpp\"\n\n".data
      ++ (fp.structs.map (fun st =>
          generate_source_content_for_class_or_struct st.name st.methods)).flatten
      ++ (fp.classes.map (fun cls =>
          generate_source_content_for_class_or_struct cls.name cls.methods)).flatten ∧
    ∀ nm : Str, ∀ ms : List CppMethod,
      generate_source_content_for_class_or_struct nm ms =
        joinSep ("\n\n".data)
          ((ms.filter (fun m => !m.define_in_header)).map (fun m => m.get_definition nm)) := by
  constructor
  · simp only [CppHeaderAndSource.generate_source_content]
    simp only [foldl_emit_pair_eq]
    simp only [CppStruct.generate_source_content, CppClass.generate_source_content]
  · intro nm ms
    rfl

/-- C10: every render operation, on each of struct, class and file pair,
leaves the object graph unchanged (the returned post-state equals the
receiver), and calling it a second time on that post-state returns the
identical string. -/
theorem renders_pure_and_idempotent (st : CppStruct) (c : CppClass)
    (fp : CppHeaderAndSource) :
    ((st.generate_header_content).2 = st ∧
      (((st.generate_header_content).2).generate_header_content).1 =
        (st.generate_header_content).1) ∧
    ((st.generate_source_content).2 = st ∧
      (((st.generate_source_content).2).generate_source_content).1 =
        (st.generate_source_content).1) ∧
    ((c.generate_header_content).2 = c ∧
      (((c.generate_header_content).2).generate_header_content).1 =
        (c.generate_header_content).1) ∧
    ((c.generate_source_content).2 = c ∧
      (((c.generate_source_content).2).generate_source_content).1 =
        (c.generate_source_content).1) ∧
    ((fp.generate_header_content).2 = fp ∧
      (((fp.generate_header_content).2).generate_header_content).1 =
        (fp.generate_header_content).1) ∧
    ((fp.generate_source_content).2 = fp ∧
      (((fp.generate_source_content).2).generate_source_content).1 =
        (fp.generate_source_content).1) := by
  have hfh : (fp.generate_header_content).2 = fp := by
    simp only [CppHeaderAndSource.generate_header_content]
    simp only [foldl_emit_pair_eq]
    simp only [CppStruct.generate_header_content, CppClass.generate_header_content]
    simp
  have hfs : (fp.generate_source_content).2 = fp := by
    simp only [CppHeaderAndSource.generate_source_content]
    simp only [foldl_emit_pair_eq]
    simp only [CppStruct.generate_source_content, CppClass.generate_source_content]
    simp
  refine ⟨⟨rfl, rfl⟩, ⟨rfl, rfl⟩, ⟨rfl, rfl⟩, ⟨rfl, rfl⟩, ⟨hfh, ?_⟩, ⟨hfs, ?_⟩⟩
  · rw [hfh]
  · rw [hfs]

/-- Lowercasing never yields an ASCII uppercase letter. -/
theorem toLowerChar_not_upper (c : Char) : isUpperChar (toLowerChar c) = false := by
  by_cases h : isUpperChar c = true
  · rw [toLowerChar, if_pos h]
    simp only [isUpperChar, Bool.and_eq_true, decide_eq_true_eq] at h
    obtain ⟨h1, h2⟩ := h
    generalize c.toNat = n at h1 h2 ⊢
    interval_cases n <;> decide
  · rw [toLowerChar, if_neg h]
    simpa using h

/-- Lowercasing a letter or digit never yields an underscore. -/
theorem toLowerChar_ne_underscore (c : Char) (h : isAlphanumChar c = true) :
    toLowerChar c ≠ '_' := by
  by_cases hu : isUpperChar c = true
  · rw [toLowerChar, if_pos hu]
    simp only [isUpperChar, Bool.and_eq_true, decide_eq_true_eq] at hu
    obtain ⟨h1, h2⟩ := hu
    generalize c.toNat = n at h1 h2 ⊢
    interval_cases n <;> decide
  · rw [toLowerChar, if_neg hu]
    intro he
    rw [he] at h
    exact absurd h (by decide)

/-- Collapsing underscore runs only removes characters. -/
theorem mem_collapseUnderscores (c : Char) : ∀ l : Str, c ∈ collapseUnderscores l → c ∈ l := by
  intro l
  induction l with
  | nil => simp [collapseUnderscores]
  | cons a t ih =>
    cases t with
    | nil => simp [collapseUnderscores]
    | cons b rest =>
      simp only [collapseUnderscores]
      split
      · intro h
        exact List.mem_cons_of_mem a (ih h)
      · intro h
        rcases List.mem_cons.mp h with h1 | h2
        · exact h1 ▸ List.mem_cons_self a _
        · exact List.mem_cons_of_mem a (ih h2)

/-- Stripping trailing underscores only removes characters. -/
theorem mem_rstripUnderscores (c : Char) : ∀ l : Str, c ∈ rstripUnderscores l → c ∈ l := by
  intro l
  induction l with
  | nil => simp [rstripUnderscores]
  | cons a t ih =>
    simp only [rstripUnderscores]
    split
    · simp
    · intro h
      rcases List.mem_cons.mp h with h1 | h2
      · exact h1 ▸ List.mem_cons_self a _
      · exact List.mem_cons_of_mem a (ih h2)

/-- A non-underscore head survives the underscore-run collapse. -/
theorem collapseUnderscores_head (b : Char) (rest : Str) (hb : b ≠ '_') :
    (collapseUnderscores (b :: rest)).head? = some b := by
  cases rest with
  | nil => simp [collapseUnderscores]
  | cons r rs =>
    simp only [collapseUnderscores]
    split
    · next h => exact absurd h.1 hb
    · simp

/-- The no-adjacent-underscores property passes to the tail. -/
theorem noDoubleUnderscore_tail (a : Char) (t : Str)
    (h : noDoubleUnderscore (a :: t) = true) : noDoubleUnderscore t = true := by
  cases t with
  | nil => rfl
  | cons b r =>
    simp only [noDoubleUnderscore, Bool.and_eq_true] at h
    exact h.2

/-- After collapsing, no two adjacent underscores remain. -/
theorem noDoubleUnderscore_collapseUnderscores :
    ∀ l : Str, noDoubleUnderscore (collapseUnderscores l) = true := by
  intro l
  induction l with
  | nil => rfl
  | cons a t ih =>
    cases t with
    | nil => rfl
    | cons b rest =>
      simp only [collapseUnderscores]
      split
      · exact ih
      · next hcond =>
        cases hX : collapseUnderscores (b :: rest) with
        | nil => rfl
        | cons x t2 =>
          rw [hX] at ih
          simp only [noDoubleUnderscore, Bool.and_eq_true]
          refine ⟨?_, ih⟩
          by_cases ha : a = '_'
          · have hb : b ≠ '_' := fun hb => hcond ⟨ha, hb⟩
            have hh := collapseUnderscores_head b rest hb
            rw [hX] at hh
            simp only [List.head?_cons, Option.some.injEq] at hh
            subst hh
            subst ha
            simp [hb]
          · simp [ha]

/-- Stripping trailing underscores keeps the head or empties the list. -/
theorem rstripUnderscores_head (l : Str) :
    (rstripUnderscores l).head? = none ∨ (rstripUnderscores l).head? = l.head? := by
  cases l with
  | nil => left; rfl
  | cons c rest =>
    simp only [rstripUnderscores]
    split
    · left; rfl
    · right; simp

/-- Stripping trailing underscores preserves the no-adjacent-underscores
property. -/
theorem noDoubleUnderscore_rstripUnderscores :
    ∀ l : Str, noDoubleUnderscore l = true → noDoubleUnderscore (rstripUnderscores l) = true := by
  intro l
  induction l with
  | nil => intro h; exact h
  | cons c rest ih =>
    intro h
    have hrest := noDoubleUnderscore_tail c rest h
    have hR' := ih hrest
    simp only [rstripUnderscores]
    split
    · rfl
    · cases hR : rstripUnderscores rest with
      | nil => rfl
      | cons x t =>
        rw [hR] at hR'
        simp only [noDoubleUnderscore, Bool.and_eq_true]
        refine ⟨?_, hR'⟩
        have hx : rest.head? = some x := by
          rcases rstripUnderscores_head rest with h0 | h0 <;> rw [hR] at h0
          · simp at h0
          · rw [← h0]; rfl
        cases rest with
        | nil => simp at hx
        | cons y r2 =>
          simp only [List.head?_cons, Option.some.injEq] at hx
          subst hx
          simp only [noDoubleUnderscore, Bool.and_eq_true] at h
          exact h.1

/-- The result of stripping trailing underscores never ends in an underscore. -/
theorem rstripUnderscores_getLast : ∀ l : Str, (rstripUnderscores l).getLast? ≠ some '_' := by
  intro l
  induction l with
  | nil => simp [rstripUnderscores]
  | cons c rest ih =>
    simp only [rstripUnderscores]
    split
    · simp
    · next h =>
      cases hR : rstripUnderscores rest with
      | nil =>
        have hc : c ≠ '_' := fun hc => h ⟨hR, hc⟩
        simp [List.getLast?, hc]
      | cons x t =>
        rw [hR] at ih
        rw [List.getLast?_cons_cons]
        exact ih

/-- Step 1 preserves the first character. -/
theorem underscoreBeforeUpper_head (l : Str) :
    (underscoreBeforeUpper l).head? = l.head? := by
  cases l <;> rfl

/-- The in-between insertions preserve the first character. -/
theorem insertBetween_head (p q : Char → Bool) (l : Str) :
    (insertBetween p q l).head? = l.head? := by
  cases l with
  | nil => rfl
  | cons a t =>
    cases t with
    | nil => rfl
    | cons b rest =>
      simp only [insertBetween]
      split <;> rfl

/-- For letter-digit input the normalized identifier never starts with an
underscore. -/
theorem camel_head_ne_underscore (l : Str)
    (hal : ∀ c ∈ l, isAlphanumChar c = true) :
    (camel_to_snake_case l).head? ≠ some '_' := by
  cases l with
  | nil => decide
  | cons a t =>
    have ha : isAlphanumChar a = true := hal a (List.mem_cons_self a t)
    have hne : toLowerChar a ≠ '_' := toLowerChar_ne_underscore a ha
    simp only [camel_to_snake_case]
    set w := insertBetween isDigitChar (fun c => !isDigitChar c)
      (insertBetween (fun c => !isDigitChar c) isDigitChar
        (underscoreBeforeUpper (a :: t))) with hw
    have hwh : w.head? = some a := by
      rw [hw, insertBetween_head, insertBetween_head, underscoreBeforeUpper_head]
      rfl
    have hmh : (w.map toLowerChar).head? = some (toLowerChar a) := by
      rw [List.head?_map, hwh]
      rfl
    have hch : (collapseUnderscores (w.map toLowerChar)).head? = some (toLowerChar a) := by
      cases hwm : w.map toLowerChar with
      | nil => rw [hwm] at hmh; simp at hmh
      | cons x xs =>
        rw [hwm] at hmh
        simp only [List.head?_cons, Option.some.injEq] at hmh
        subst hmh
        exact collapseUnderscores_head _ xs hne
    rcases rstripUnderscores_head (collapseUnderscores (w.map toLowerChar)) with h0 | h0 <;>
      rw [h0]
    · simp
    · rw [hch]
      intro hcontra
      exact hne (Option.some.inj hcontra)

/-- C6: on inputs of letters and digits, `camel_to_snake_case` yields no
uppercase letter, no run of two or more underscores, and no leading or
trailing underscore; the empty input yields the empty output (and the
function is total, so it never fails). -/
theorem camel_to_snake_case_normal_form :
    camel_to_snake_case [] = [] ∧
    ∀ l : Str, (∀ c ∈ l, isAlphanumChar c = true) →
      (∀ c ∈ camel_to_snake_case l, isUpperChar c = false) ∧
      noDoubleUnderscore (camel_to_snake_case l) = true ∧
      (camel_to_snake_case l).head? ≠ some '_' ∧
      (camel_to_snake_case l).getLast? ≠ some '_' := by
  constructor
  · rfl
  · intro l hal
    refine ⟨?_, ?_, camel_head_ne_underscore l hal, rstripUnderscores_getLast _⟩
    · intro c hc
      have h1 := mem_rstripUnderscores c _ hc
      have h2 := mem_collapseUnderscores c _ h1
      rcases List.mem_map.mp h2 with ⟨d, _, hd⟩
      rw [← hd]
      exact toLowerChar_not_upper d
    · exact noDoubleUnderscore_rstripUnderscores _
        (noDoubleUnderscore_collapseUnderscores _)

/-- Witness for C6 at the concrete input "HTTPServer2Config". -/
theorem camel_to_snake_case_normal_form_witness :
    (∀ c ∈ ("HTTPServer2Config".data), isAlphanumChar c = true) ∧
    ((∀ c ∈ camel_to_snake_case ("HTTPServer2Config".data), isUpperChar c = false) ∧
      noDoubleUnderscore (camel_to_snake_case ("HTTPServer2Config".data)) = true ∧
      (camel_to_snake_case ("HTTPServer2Config".data)).head? ≠ some '_' ∧
      (camel_to_snake_case ("HTTPServer2Config".data)).getLast? ≠ some '_') :=
  ⟨by decide, camel_to_snake_case_normal_form.2 ("HTTPServer2Config".data) (by decide)⟩

set_option maxRecDepth 8000 in
/-- C1: the example file pair of `__main__` (struct ExampleStruct with int
members w and z and a public out-of-line method add, class ExampleClass with
members x and y, an iostream include and a convenience constructor) renders
exactly this guarded header — iostream include, struct body with int w;,
int z; and int add(); under public: and an empty private section, then the
class body with its members and the constructor declaration — and exactly
this source: the self-include followed by the out-of-line definitions of
ExampleStruct::add and of the constructor with its initializer list and
empty body. -/
theorem example_file_end_to_end :
    (example_file.generate_header_content).1 =
      "#ifndef EXAMPLE_FILE_HPP\n#define EXAMPLE_FILE_HPP\n\n#include <iostream>\nstruct ExampleStruct \x7b\npublic:\n    int w;\n    int z;\n\n    int add();\n\nprivate:\n    \n\x7d;\n\n\n\nclass ExampleClass \x7b\npublic:\n    int x;\n    float y;\n\n    ExampleClass(int x, float y);\n\nprivate:\n    \n\x7d;\n\n#endif // EXAMPLE_FILE_HPP".data ∧
    (example_file.generate_source_content).1 =
      "#include \"example_file.hpp\"\n\nint ExampleStruct::add() \x7b\n    return w + z;\n\x7dExampleClass::ExampleClass(int x, float y) : x(x), y(y) \x7b\n    \n\x7d".data := by
  constructor
  · decide
  · decide
